import Mathlib

/-!
Verification of the time-series tile animation and pre-cache engine of the
LiivSky2 weather dashboard.

The definitions below are a shallow embedding of the TypeScript source:

- "GeometTime" embeds src/src/services/geometTime.ts (time-dimension parsing:
  ISO-8601 duration parsing, interval expansion, mixed-format expansion).
  JavaScript Date values are embedded as Int epoch milliseconds; the subset
  of the Date ISO grammar actually exchanged with the WMS servers
  ("YYYY-MM-DDTHH:MM:SSZ", optionally with a ".mmm" millisecond part) is
  parsed by parseDate, and Date.prototype.toISOString composed with the
  ".000Z" strip is fmtTime.
- "WmsLayer" embeds the WmsAnimatedLayer component of
  src/src/components/map/WeatherMap.tsx (per-frame tile-layer registry,
  load-completion handler, placeholder cutover, opacity frame swap).
- "Coord" embeds the useWmsAnimation and useModelMapAnimation hooks of
  src/src/hooks (request sequence numbers, response application, initial
  frame selection, proportional cross-timeline mapping).
- "CachePage" embeds the MapPage cache bookkeeping (handleCacheStatus and
  the overlay-set reconciliation effect).

JavaScript numbers are embedded as Nat / Int / Rat as appropriate; opacities
are Rat; JS Map and plain-object stores are association lists with
insert-or-overwrite semantics; a JS Set of strings is a duplicate-free list.
-/

namespace LiivSky

/-! ## Embedding of src/src/services/geometTime.ts -/

/-- Split a character list at every occurrence of a separator character,
the embedding of the JavaScript "s.split(sep)" for one-character separators
(the source only splits on "/" and ","). -/
def splitOnChar (sep : Char) (cs : List Char) : List (List Char) :=
  match cs with
  | [] => [[]]
  | c :: rest =>
    match splitOnChar sep rest with
    | [] => [[]]
    | g :: gs => if c = sep then [] :: g :: gs else (c :: g) :: gs

/-- Embedding of the JavaScript "s.split(sep)" on String values. -/
def jsSplit (sep : Char) (s : String) : List String :=
  (splitOnChar sep s.data).map String.mk

/-- Embedding of the JavaScript "s.trim()": strip whitespace at both ends. -/
def jsTrim (s : String) : String :=
  String.mk (((s.data.dropWhile Char.isWhitespace).reverse.dropWhile
    Char.isWhitespace).reverse)

/-- Embedding of the JavaScript "s.includes(c)" for a single character. -/
def jsContains (s : String) (c : Char) : Bool :=
  decide (c ∈ s.data)

/-- Decimal digit characters of a two-digit zero-padded field. -/
def pad2 (n : Nat) : List Char :=
  [Nat.digitChar (n / 10), Nat.digitChar (n % 10)]

/-- Decimal digit characters of a three-digit zero-padded field. -/
def pad3 (n : Nat) : List Char :=
  [Nat.digitChar (n / 100), Nat.digitChar (n / 10 % 10), Nat.digitChar (n % 10)]

/-- Decimal digit characters of a four-digit zero-padded field. -/
def pad4 (n : Nat) : List Char :=
  [Nat.digitChar (n / 1000), Nat.digitChar (n / 100 % 10),
   Nat.digitChar (n / 10 % 10), Nat.digitChar (n % 10)]

/-- Gregorian leap-year test. -/
def isLeap (y : Nat) : Bool :=
  (y % 4 = 0 && y % 100 ≠ 0) || y % 400 = 0

/-- Number of days in a month of the proleptic Gregorian calendar. -/
def daysInMonth (y m : Nat) : Nat :=
  if m = 2 then (if isLeap y then 29 else 28)
  else if m = 4 || m = 6 || m = 9 || m = 11 then 30
  else 31

/-- Days since 1970-01-01 of a Gregorian date with year in 0..9999
(the year range accepted by parseDate).  Computed with a 400-year shift so
every intermediate value is a Nat. -/
def epochDays (y m d : Nat) : Int :=
  let ys := y + 400 - (if m ≤ 2 then 1 else 0)
  let era := ys / 400
  let yoe := ys % 400
  let doy := (153 * (if 2 < m then m - 3 else m + 9) + 2) / 5 + d - 1
  let doe := yoe * 365 + yoe / 4 - yoe / 100 + doy
  (era * 146097 + doe : Nat) - (146097 + 719468 : Nat)

/-- Gregorian date (year, month, day) of a days-since-1970 count.
Inverse of epochDays on the supported range. -/
def civilFromDays (z : Int) : Nat × Nat × Nat :=
  let n := (z + 719468 + 146097).toNat
  let era := n / 146097
  let doe := n % 146097
  let yoe := (doe - doe / 1460 + doe / 36524 - doe / 146096) / 365
  let doy := doe - (365 * yoe + yoe / 4 - yoe / 100)
  let mp := (5 * doy + 2) / 153
  let d := doy - (153 * mp + 2) / 5 + 1
  let m := if mp < 10 then mp + 3 else mp - 9
  let y := yoe + era * 400 + (if m ≤ 2 then 1 else 0)
  (y - 400, m, d)

/-- Numeric value of a decimal digit character. -/
def digitVal (c : Char) : Nat := c.toNat - '0'.toNat

/-- Embedding of the JavaScript "new Date(string).getTime()" call on the
ISO-8601 UTC grammar used by the WMS time dimension:
"YYYY-MM-DDTHH:MM:SSZ" or "YYYY-MM-DDTHH:MM:SS.mmmZ".  Returns the epoch
milliseconds, or none where the JS Date would be Invalid Date (NaN). -/
def parseDate (s : String) : Option Int :=
  match s.data with
  | y1 :: y2 :: y3 :: y4 :: '-' :: mo1 :: mo2 :: '-' :: d1 :: d2 :: 'T' ::
      h1 :: h2 :: ':' :: mi1 :: mi2 :: ':' :: sA :: sB :: rest =>
    if [y1, y2, y3, y4, mo1, mo2, d1, d2, h1, h2, mi1, mi2, sA, sB].all Char.isDigit then
      let y := digitVal y1 * 1000 + digitVal y2 * 100 + digitVal y3 * 10 + digitVal y4
      let mo := digitVal mo1 * 10 + digitVal mo2
      let d := digitVal d1 * 10 + digitVal d2
      let h := digitVal h1 * 10 + digitVal h2
      let mi := digitVal mi1 * 10 + digitVal mi2
      let ss := digitVal sA * 10 + digitVal sB
      let msPart : Option Nat :=
        match rest with
        | ['Z'] => some 0
        | ['.', a, b, c, 'Z'] =>
          if [a, b, c].all Char.isDigit then
            some (digitVal a * 100 + digitVal b * 10 + digitVal c)
          else none
        | _ => none
      match msPart with
      | none => none
      | some ms =>
        if 1 ≤ mo ∧ mo ≤ 12 ∧ 1 ≤ d ∧ d ≤ daysInMonth y mo ∧ h ≤ 23 ∧ mi ≤ 59 ∧ ss ≤ 59 then
          some (epochDays y mo d * 86400000 + (((h * 3600 + mi * 60 + ss) * 1000 + ms : Nat) : Int))
        else none
    else none
  | _ => none

/-- Embedding of "new Date(t).toISOString().replace('.000Z', 'Z')" from
expandInterval: format epoch milliseconds as an ISO timestamp, with the
millisecond part present exactly when it is nonzero. -/
def fmtTime (t : Int) : String :=
  let days := t / 86400000
  let msod := (t % 86400000).toNat
  let c := civilFromDays days
  let hh := msod / 3600000
  let mi := msod % 3600000 / 60000
  let ss := msod % 60000 / 1000
  let ms := msod % 1000
  String.mk (pad4 c.1 ++ '-' :: pad2 c.2.1 ++ '-' :: pad2 c.2.2 ++ 'T' ::
    pad2 hh ++ ':' :: pad2 mi ++ ':' :: pad2 ss ++
    (if ms = 0 then ['Z'] else '.' :: pad3 ms ++ ['Z']))

/-- Leading decimal digit run of a character list, with the remainder;
none when there is no leading digit (models a failed regex digit group). -/
def readDigits (cs : List Char) : Option (Nat × List Char) :=
  let ds := cs.takeWhile Char.isDigit
  if ds = [] then none
  else some (ds.foldl (fun a c => a * 10 + digitVal c) 0, cs.drop ds.length)

/-- One optional "(digits)(unit letter)" group of the PT duration regex,
case-insensitive; yields 0 and consumes nothing when the group is absent. -/
def tryUnitGroup (u : Char) (cs : List Char) : Nat × List Char :=
  match readDigits cs with
  | some (n, c :: rest) => if c.toLower = u then (n, rest) else (0, cs)
  | _ => (0, cs)

/-- Match of the regex "PT(?:(d+)H)?(?:(d+)M)?(?:(d+)S)?$" part of
parseDuration, starting at the character that should be the T. -/
def parseTimePart (cs : List Char) : Int :=
  match cs with
  | t :: rest =>
    if t.toLower = 't' then
      let hG := tryUnitGroup 'h' rest
      let mG := tryUnitGroup 'm' hG.2
      let sG := tryUnitGroup 's' mG.2
      if sG.2 = [] then (((hG.1 * 3600 + mG.1 * 60 + sG.1) * 1000 : Nat) : Int) else 0
    else 0
  | [] => 0

/-- Embedding of parseDuration from geometTime.ts: an ISO-8601 duration of
the forms P(n)D or PT(n)H(n)M(n)S (case-insensitive, every group optional)
in milliseconds; anything else parses to 0. -/
def parseDuration (dur : String) : Int :=
  match dur.data with
  | p :: rest =>
    if p.toLower = 'p' then
      match readDigits rest with
      | some (n, [c]) =>
        if c.toLower = 'd' then ((n * 86400000 : Nat) : Int) else parseTimePart rest
      | _ => parseTimePart rest
    else 0
  | [] => 0

/-- Fuel-bounded body of the expansion loop of expandInterval:
"for (let t = start; t <= end; t += stepMs) times.push(t)".
The fuel only bounds the recursion depth so that the definition is
structural and kernel-reducible; expandTimes always passes enough of it. -/
def expandTimesAux (fuel : Nat) (t endT step : Int) : List Int :=
  match fuel with
  | 0 => []
  | fuel + 1 =>
    if t ≤ endT then t :: expandTimesAux fuel (t + step) endT step else []

/-- Embedding of the expansion loop of expandInterval.  The caller only
invokes it with step > 0, so (endT - t).toNat + 1 iterations always
exhaust the loop condition before the fuel runs out. -/
def expandTimes (t endT step : Int) : List Int :=
  expandTimesAux ((endT - t).toNat + 1) t endT step

/-- Embedding of expandInterval from geometTime.ts: split on "/", fall back
to the raw string unless there are exactly three parts, fall back to the
raw start token when either date is invalid or the step is nonpositive,
otherwise expand and format the arithmetic progression of times. -/
def expandInterval (interval : String) : List String :=
  let parts := jsSplit '/' interval
  if parts.length = 3 then
    let p0 := parts.getD 0 ""
    match parseDate p0, parseDate (parts.getD 1 "") with
    | some s, some e =>
      let stepMs := parseDuration (parts.getD 2 "")
      if stepMs ≤ 0 then (if p0 = "" then [] else [p0])
      else (expandTimes s e stepMs).map fmtTime
    | _, _ => if p0 = "" then [] else [p0]
  else [interval]

/-- Order-preserving first-seen deduplication, the embedding of
"[...new Set(results)]" in expandTimeDimension. -/
def dedupFirst (l : List String) : List String :=
  l.foldl (fun acc x => if x ∈ acc then acc else acc ++ [x]) []

/-- Embedding of expandTimeDimension from geometTime.ts: split the dimension
string on commas, trim, drop empties, expand the segments that contain a
slash as intervals and keep the others verbatim, then deduplicate keeping
first-seen order. -/
def expandTimeDimension (dimensionStr : String) : List String :=
  if dimensionStr = "" then []
  else
    let segments := ((jsSplit ',' dimensionStr).map jsTrim).filter (fun s => s ≠ "")
    let results := segments.foldl (fun acc seg =>
      acc ++ (if jsContains seg '/' then expandInterval seg else [seg])) []
    dedupFirst results

/-! ## Embedding of the WmsAnimatedLayer component (WeatherMap.tsx)

The component manages, per overlay: a registry of per-frame tile layers
(a JS Map from frame key to a Leaflet layer whose only observable state
here is its opacity), a static placeholder layer, the key of the currently
visible frame, and the set of frame keys whose tiles have loaded.
Removal of the static placeholder is counted so that "removed exactly
once" is expressible. -/

/-- Fields of the overlay descriptor (WmsOverlayDef) that the animated
layer's load handler and frame-swap effect read.  The time and opacity
fields carry the "?? default" of the component already applied. -/
structure WmsOverlay where
  id : String
  time : String
  opacity : ℚ
  allTimes : List String
  forecastMode : Bool
deriving DecidableEq

/-- Mutable state of one WmsAnimatedLayer instance. -/
structure WmsLayerState where
  frameLayers : List (String × ℚ)
  staticLayer : Bool
  activeTime : String
  loadedTimes : List String
  staticRemovedCount : Nat
deriving DecidableEq

/-- Association-list lookup by string key (JS Map.get / object read). -/
def lookupStr {α : Type} (m : List (String × α)) (k : String) : Option α :=
  match m with
  | [] => none
  | e :: rest => if e.1 = k then some e.2 else lookupStr rest k

/-- Insert-or-overwrite at a string key, keeping the original position of
an existing key (JS Map.set / object property assignment). -/
def storeSet {α : Type} (m : List (String × α)) (k : String) (v : α) : List (String × α) :=
  if (lookupStr m k).isSome then
    m.map (fun e => if e.1 = k then (e.1, v) else e)
  else m ++ [(k, v)]

/-- Mutate the opacity of the layer registered at a key, if any (the
"const l = map.get(k); if (l) l.setOpacity(v)" pattern). -/
def setOpacityAt (m : List (String × ℚ)) (k : String) (v : ℚ) : List (String × ℚ) :=
  if (lookupStr m k).isSome then
    m.map (fun e => if e.1 = k then (e.1, v) else e)
  else m

/-- State of the component after the pre-cache effect has created every
per-frame layer (each at opacity 0, registered in list order) and before
any load event has fired. -/
def initPrecache (allTimes : List String) : WmsLayerState :=
  { frameLayers := allTimes.foldl (fun m k => storeSet m k 0) []
    staticLayer := true
    activeTime := ""
    loadedTimes := []
    staticRemovedCount := 0 }

/-- Embedding of the per-frame "load" event handler of WmsAnimatedLayer:
record the frame key in the loaded set, report (overlay id, loaded, total)
upward, and if the aggregate loaded count has reached the total while the
static placeholder is still on the map, remove the placeholder and show
the layer matching the overlay's current frame key at the target opacity. -/
def handleLoad (ov : WmsOverlay) (total : Nat) (key : String) (s : WmsLayerState) :
    WmsLayerState × (String × Nat × Nat) :=
  let lt := if key ∈ s.loadedTimes then s.loadedTimes else s.loadedTimes ++ [key]
  let loaded := lt.length
  let report := (ov.id, loaded, total)
  if total ≤ loaded ∧ s.staticLayer = true then
    let s1 : WmsLayerState :=
      { s with loadedTimes := lt, staticLayer := false
               staticRemovedCount := s.staticRemovedCount + 1 }
    if ov.time ≠ "" then
      ({ s1 with frameLayers := setOpacityAt s1.frameLayers ov.time ov.opacity
                 activeTime := ov.time }, report)
    else (s1, report)
  else ({ s with loadedTimes := lt }, report)

/-- Fold a sequence of load-completion events through handleLoad,
keeping only the state. -/
def processEvents (ov : WmsOverlay) (total : Nat) (events : List String)
    (s : WmsLayerState) : WmsLayerState :=
  events.foldl (fun st k => (handleLoad ov total k st).1) s

/-- Fold a sequence of load-completion events through handleLoad,
collecting the reports passed to onCacheStatus; an overlay whose frame-key
list is empty creates no layers and so emits no reports (the pre-cache
effect returns early). -/
def runPrecache (ov : WmsOverlay) (events : List String) : List (String × Nat × Nat) :=
  if ov.allTimes.length = 0 then []
  else
    (events.foldl (fun (p : WmsLayerState × List (String × Nat × Nat)) k =>
      let r := handleLoad ov ov.allTimes.length k p.1
      (r.1, p.2 ++ [r.2])) (initPrecache ov.allTimes, [])).2

/-- Embedding of the instant frame-swap effect of WmsAnimatedLayer: on a
change of the overlay's current frame key, bail out while the placeholder
is up or the registry is empty, otherwise hide the previously active frame,
show the newly requested one when registered, and record the requested key
as active. -/
def frameSwap (ov : WmsOverlay) (s : WmsLayerState) : WmsLayerState :=
  if ov.time = "" ∨ ov.time = s.activeTime then s
  else if s.staticLayer then s
  else if s.frameLayers.length = 0 then s
  else
    let fl1 := setOpacityAt s.frameLayers s.activeTime 0
    let fl2 := setOpacityAt fl1 ov.time ov.opacity
    { s with frameLayers := fl2, activeTime := ov.time }

/-! ## Embedding of the useWmsAnimation and useModelMapAnimation hooks -/

/-- One named timeline of the multi-overlay animation hook. -/
structure LayerTimeline where
  wmsLayer : String
  times : List String
deriving DecidableEq

/-- Virtual layer key of the HRRR forecast timeline. -/
def HRRR_TIMELINE_KEY : String := "__hrrr__"

/-- Left-pad a digit list with zeros to four characters
(String(n).padStart(4, '0')). -/
def padStart4Zeros (s : List Char) : List Char :=
  List.replicate (4 - s.length) '0' ++ s

/-- Embedding of HRRR_FORECAST_LAYERS from ecGeometLayers.ts: the 19 layer
names refd_0000, refd_0060, ..., refd_1080. -/
def HRRR_FORECAST_LAYERS : List String :=
  (List.range 19).map (fun i => "refd_" ++ String.mk (padStart4Zeros (Nat.toDigits 10 (i * 60))))

/-- The HRRR static timeline inserted when the HRRR overlay is active. -/
def hrrrTimeline : LayerTimeline := ⟨HRRR_TIMELINE_KEY, HRRR_FORECAST_LAYERS⟩

/-- State of one useWmsAnimation instance that the fetch path touches.
The frame index is an Int because the source stores
"primary.times.length - 1", which is -1 for an empty primary timeline. -/
structure WmsCoordState where
  fetchCounter : Nat
  timelines : List LayerTimeline
  frameIndex : Int
  playing : Bool
  loading : Bool
deriving DecidableEq

/-- Maximum retained animation frames per layer in useWmsAnimation. -/
def MAX_ANIMATION_FRAMES : Nat := 18

/-- Embedding of "times.slice(-n)": the last n elements. -/
def lastN (n : Nat) (l : List String) : List String :=
  l.drop (l.length - n)

/-- Embedding of the issue side of fetchTimelines: bump the request
sequence number (fetchId = ++fetchRef.current) and enter loading state;
returns the new state and the fetch id attached to the request. -/
def issueRequest (s : WmsCoordState) : WmsCoordState × Nat :=
  ({ s with fetchCounter := s.fetchCounter + 1, loading := true }, s.fetchCounter + 1)

/-- Embedding of the response side of fetchTimelines: a response carrying
its fetch id and the raw per-layer time lists is dropped entirely when the
id no longer matches the latest issued request; otherwise the timelines
are truncated to the retained window, the HRRR timeline is appended when
active, and the initial frame is chosen (0 for an HRRR primary, last index
otherwise). -/
def wmsApplyResponse (fetchId : Nat) (ecRaw : List (String × List String))
    (hrrrActive : Bool) (s : WmsCoordState) : WmsCoordState :=
  if fetchId ≠ s.fetchCounter then s
  else
    let ecResults : List LayerTimeline :=
      ecRaw.map (fun p => ⟨p.1, lastN MAX_ANIMATION_FRAMES p.2⟩)
    let combined := if hrrrActive then ecResults ++ [hrrrTimeline] else ecResults
    let fi : Int :=
      match combined.head? with
      | some primary =>
        if primary.wmsLayer = HRRR_TIMELINE_KEY then 0 else (primary.times.length : Int) - 1
      | none => s.frameIndex
    { s with timelines := combined, frameIndex := fi, loading := false }

/-- State of one useModelMapAnimation instance that the fetch path touches. -/
structure ModelCoordState where
  fetchCounter : Nat
  times : List String
  frameIndex : Int
  playing : Bool
  loading : Bool
  errorMsg : Option String
deriving DecidableEq

/-- Maximum forecast frames to animate in useModelMapAnimation. -/
def MAX_FRAMES : Nat := 48

/-- Embedding of the issue side of the useModelMapAnimation fetch effect. -/
def modelIssueRequest (s : ModelCoordState) : ModelCoordState × Nat :=
  ({ s with fetchCounter := s.fetchCounter + 1, loading := true
            errorMsg := none, playing := false }, s.fetchCounter + 1)

/-- Embedding of the response side of the useModelMapAnimation fetch
effect: drop stale responses, sample the time list down to MAX_FRAMES
evenly spaced entries, and reset the frame index to 0. -/
def modelApplyResponse (fetchId : Nat) (tdTimes : List String)
    (s : ModelCoordState) : ModelCoordState :=
  if fetchId ≠ s.fetchCounter then s
  else
    let sampled :=
      if tdTimes.length ≤ MAX_FRAMES then tdTimes
      else
        let step := (tdTimes.length + MAX_FRAMES - 1) / MAX_FRAMES
        (tdTimes.enum.filter (fun p => p.1 % step = 0)).map Prod.snd
    { s with times := sampled, frameIndex := 0, loading := false }

/-- Embedding of the JavaScript "list[i]" read: the element at i, or the
undefined placeholder "" when i is out of range. -/
def jsIndex (l : List String) (i : Int) : String :=
  if 0 ≤ i then l.getD i.toNat "" else ""

/-- Length of the primary (first) timeline, the hook's totalFrames. -/
def primaryTotalOf (timelines : List LayerTimeline) : Nat :=
  match timelines.head? with
  | some tl => tl.times.length
  | none => 0

/-- Per-timeline body of the layerTimes loop of useWmsAnimation: skip an
empty timeline, assign the timestamp at the last index when the primary
has at most one frame, and otherwise the timestamp at
round(progress * (length - 1)) where progress = frameIndex /
(totalFrames - 1). -/
def layerTimeStep (totalFrames : Nat) (frameIndex : Int)
    (acc : List (String × String)) (tl : LayerTimeline) : List (String × String) :=
  if tl.times.length = 0 then acc
  else if totalFrames ≤ 1 then
    storeSet acc tl.wmsLayer (jsIndex tl.times ((tl.times.length : Int) - 1))
  else
    let progress : ℚ := (frameIndex : ℚ) / ((totalFrames : ℚ) - 1)
    let idx : Int := round (progress * ((tl.times.length : ℚ) - 1))
    storeSet acc tl.wmsLayer (jsIndex tl.times idx)

/-- Embedding of the layerTimes computation of useWmsAnimation: fold
layerTimeStep over the timelines, starting from the empty record. -/
def computeLayerTimes (timelines : List LayerTimeline) (frameIndex : Int) :
    List (String × String) :=
  timelines.foldl (layerTimeStep (primaryTotalOf timelines) frameIndex) []

/-- Formalization of the cross-timeline mapping as the spec words it:
"progress = primaryIndex / (primaryTotal - 1) (or the last index if
primaryTotal <= 1), then secondaryIndex = round(progress * (secondaryLength
- 1))". -/
def specSecondaryIndex (primaryIndex primaryTotal secondaryLength : Nat) : Nat :=
  if primaryTotal ≤ 1 then secondaryLength - 1
  else
    (round (((primaryIndex : ℚ) / ((primaryTotal : ℚ) - 1)) *
      ((secondaryLength : ℚ) - 1))).toNat

/-! ## Embedding of the MapPage cache bookkeeping -/

/-- Embedding of the body of handleCacheStatus (MapPage) and of the model
map viewer: "cacheRef.current[overlayId] = { loaded, total }". -/
def applyCacheStatus (cache : List (String × Nat × Nat)) (overlayId : String)
    (loaded total : Nat) : List (String × Nat × Nat) :=
  storeSet cache overlayId (loaded, total)

/-- Sum of the loaded counts over all recorded cache entries. -/
def sumLoaded (cache : List (String × Nat × Nat)) : Nat :=
  (cache.map (fun e => e.2.1)).sum

/-- Sum of the total counts over all recorded cache entries. -/
def sumTotal (cache : List (String × Nat × Nat)) : Nat :=
  (cache.map (fun e => e.2.2)).sum

/-- Embedding of "totalAll > 0 ? loadedAll / totalAll : 0". -/
def deriveProgress (cache : List (String × Nat × Nat)) : ℚ :=
  if 0 < sumTotal cache then (sumLoaded cache : ℚ) / (sumTotal cache : ℚ) else 0

/-- Embedding of "loadedAll >= totalAll && totalAll > 0". -/
def deriveReady (cache : List (String × Nat × Nat)) : Bool :=
  decide (sumTotal cache ≤ sumLoaded cache) && decide (0 < sumTotal cache)

/-- Formalization of the claim wording for aggregate readiness: every
active overlay has loaded equal to total and a positive total. -/
def specAggReady (overlays : List (Nat × Nat)) : Bool :=
  overlays.all (fun p => decide (p.1 = p.2) && decide (0 < p.2))

/-- Embedding of the overlayIdKey memo of MapPage: the ids of the active
available layers joined with commas (JS Array.prototype.join(',')). -/
def overlayIdKeyOf (activeLayerIds : List String) : String :=
  match activeLayerIds with
  | [] => ""
  | x :: rest => rest.foldl (fun acc s => acc ++ "," ++ s) x

/-- Embedding of the id fields given to overlay descriptors in the
overlays memo of MapPage: radar and satellite ids carry the selected
product as a suffix, the other layers use the layer id itself. -/
def overlayIdFor (layerId radarProduct satelliteProduct : String) : String :=
  if layerId = "radar" then "radar-" ++ radarProduct
  else if layerId = "satellite" then "satellite-" ++ satelliteProduct
  else layerId

/-- Embedding of the overlay-set reconciliation effect of MapPage: split
the overlay id key on commas, drop empty segments, and delete every cache
entry whose key is not among the surviving ids. -/
def reconcileCache (overlayIdKey : String) (cache : List (String × Nat × Nat)) :
    List (String × Nat × Nat) :=
  let currentIds := (jsSplit ',' overlayIdKey).filter (fun s => s ≠ "")
  cache.filter (fun e => e.1 ∈ currentIds)

/-- Whether a string ends with the five characters ".000Z" (the suffix the
spec says never survives normalization). -/
def endsDot000Z (s : String) : Bool :=
  ['.', '0', '0', '0', 'Z'].isSuffixOf s.data

/-! ## Lemmas about the association-list store -/

theorem lookupStr_isSome_iff {α : Type} (m : List (String × α)) (k : String) :
    (lookupStr m k).isSome ↔ k ∈ m.map Prod.fst := by
  induction m with
  | nil => simp [lookupStr]
  | cons e rest ih =>
    by_cases h : e.1 = k
    · simp [lookupStr, h]
    · have h2 : ¬ k = e.1 := fun hc => h hc.symm
      simp [lookupStr, h, ih, h2]

theorem lookupStr_eq_none_iff {α : Type} (m : List (String × α)) (k : String) :
    lookupStr m k = none ↔ k ∉ m.map Prod.fst := by
  rw [← lookupStr_isSome_iff]
  cases lookupStr m k <;> simp

theorem lookupStr_map_update {α : Type} (m : List (String × α)) (k : String) (v : α)
    (h : k ∈ m.map Prod.fst) :
    lookupStr (m.map (fun e => if e.1 = k then (e.1, v) else e)) k = some v := by
  induction m with
  | nil => simp at h
  | cons e rest ih =>
    by_cases he : e.1 = k
    · simp [lookupStr, he]
    · have hr : k ∈ rest.map Prod.fst := by
        simp only [List.map_cons, List.mem_cons] at h
        rcases h with h | h
        · exact absurd h.symm he
        · exact h
      simp [lookupStr, he, ih hr]

theorem setOpacityAt_lookup_self (m : List (String × ℚ)) (k : String) (v : ℚ)
    (h : k ∈ m.map Prod.fst) :
    lookupStr (setOpacityAt m k v) k = some v := by
  unfold setOpacityAt
  rw [if_pos ((lookupStr_isSome_iff m k).mpr h)]
  exact lookupStr_map_update m k v h

theorem setOpacityAt_keys (m : List (String × ℚ)) (k : String) (v : ℚ) :
    (setOpacityAt m k v).map Prod.fst = m.map Prod.fst := by
  unfold setOpacityAt
  split
  · rw [List.map_map]
    apply List.map_congr_left
    intro e _
    by_cases h : e.1 = k <;> simp [h]
  · rfl

theorem setOpacityAt_lookup_none (m : List (String × ℚ)) (j k : String) (v : ℚ)
    (h : lookupStr m k = none) : lookupStr (setOpacityAt m j v) k = none := by
  rw [lookupStr_eq_none_iff] at h ⊢
  rw [setOpacityAt_keys]
  exact h

theorem foldl_storeSet_nodup {α : Type} (l : List String) (v : α)
    (acc : List (String × α)) (hnd : l.Nodup)
    (hdisj : ∀ k ∈ l, k ∉ acc.map Prod.fst) :
    l.foldl (fun m k => storeSet m k v) acc = acc ++ l.map (fun k => (k, v)) := by
  induction l generalizing acc with
  | nil => simp
  | cons k rest ih =>
    have hkacc : k ∉ acc.map Prod.fst := hdisj k (by simp)
    have h1 : storeSet acc k v = acc ++ [(k, v)] := by
      unfold storeSet
      rw [if_neg]
      rw [lookupStr_isSome_iff]
      exact hkacc
    have hdisj2 : ∀ j ∈ rest, j ∉ (acc ++ [(k, v)]).map Prod.fst := by
      intro j hj
      rw [List.map_append]
      simp only [List.mem_append, List.map_cons, List.map_nil]
      rintro (hja | hjk)
      · exact hdisj j (List.mem_cons_of_mem _ hj) hja
      · simp only [List.mem_singleton] at hjk
        rw [hjk] at hj
        exact (List.nodup_cons.mp hnd).1 hj
    rw [List.foldl_cons, h1, ih (acc ++ [(k, v)]) hnd.of_cons hdisj2]
    simp

theorem initPrecache_frameLayers (allTimes : List String) (hnd : allTimes.Nodup) :
    (initPrecache allTimes).frameLayers = allTimes.map (fun k => (k, (0 : ℚ))) := by
  unfold initPrecache
  exact foldl_storeSet_nodup allTimes 0 [] hnd (by simp)

/-! ## Lemmas about the load-event handler -/

theorem processEvents_append (ov : WmsOverlay) (total : Nat) (es1 es2 : List String)
    (s : WmsLayerState) :
    processEvents ov total (es1 ++ es2) s =
      processEvents ov total es2 (processEvents ov total es1 s) := by
  simp [processEvents, List.foldl_append]

theorem handleLoad_loadedTimes (ov : WmsOverlay) (total : Nat) (key : String)
    (s : WmsLayerState) :
    ((handleLoad ov total key s).1).loadedTimes =
      if key ∈ s.loadedTimes then s.loadedTimes else s.loadedTimes ++ [key] := by
  unfold handleLoad
  by_cases hk : key ∈ s.loadedTimes <;>
    simp [hk, apply_ite (fun p : WmsLayerState × (String × Nat × Nat) => p.1.loadedTimes)]

theorem processEvents_below_total (ov : WmsOverlay) (total : Nat) (es : List String)
    (R : List (String × ℚ)) (hnd : es.Nodup) (hlt : es.length < total) :
    processEvents ov total es ⟨R, true, "", [], 0⟩ = ⟨R, true, "", es, 0⟩ := by
  induction es using List.reverseRecOn with
  | nil => rfl
  | append_singleton es k ih =>
    have hsplit := List.nodup_append.mp hnd
    have hkes : k ∉ es := by
      intro hc
      exact (hsplit.2.2 hc) (List.mem_singleton_self k)
    rw [processEvents_append]
    have hlen : es.length < total := by
      simp only [List.length_append, List.length_singleton] at hlt
      omega
    rw [ih hsplit.1 hlen]
    show (handleLoad ov total k ⟨R, true, "", es, 0⟩).1 = _
    unfold handleLoad
    rw [if_neg hkes]
    rw [if_neg (by
      rintro ⟨hle, -⟩
      simp at hle hlt
      omega)]

theorem initPrecache_eq (allTimes : List String) (hnd : allTimes.Nodup) :
    initPrecache allTimes =
      ⟨allTimes.map (fun t => (t, (0 : ℚ))), true, "", [], 0⟩ := by
  unfold initPrecache
  rw [foldl_storeSet_nodup allTimes 0 [] hnd (by simp)]
  simp

theorem map_pair_keys (l : List String) (v : ℚ) :
    (l.map (fun t => (t, v))).map Prod.fst = l := by
  induction l <;> simp_all

/-- C1: for every overlay with a non-empty, duplicate-free frame-key list
and a current frame key drawn from that list, after load-completion events
have arrived for all frame keys in any order, the static placeholder is
removed exactly once and the per-frame layer matching the current frame
key is set to the target opacity; the cutover depends only on the
aggregate loaded count reaching the total. -/
theorem claim1_cutover_once (ov : WmsOverlay) (events : List String)
    (hnd : ov.allTimes.Nodup) (hne : ov.allTimes ≠ [])
    (hperm : events.Perm ov.allTimes)
    (htime : ov.time ∈ ov.allTimes) (hts : ov.time ≠ "") :
    (processEvents ov ov.allTimes.length events (initPrecache ov.allTimes)).staticLayer
        = false ∧
    (processEvents ov ov.allTimes.length events
        (initPrecache ov.allTimes)).staticRemovedCount = 1 ∧
    lookupStr (processEvents ov ov.allTimes.length events
        (initPrecache ov.allTimes)).frameLayers ov.time = some ov.opacity ∧
    (processEvents ov ov.allTimes.length events
        (initPrecache ov.allTimes)).activeTime = ov.time := by
  have hndE : events.Nodup := hperm.nodup_iff.mpr hnd
  have hlenE : events.length = ov.allTimes.length := hperm.length_eq
  rcases List.eq_nil_or_concat events with hnil | ⟨es, k, hesk⟩
  · exfalso
    rw [hnil] at hlenE
    exact hne (List.eq_nil_of_length_eq_zero hlenE.symm)
  · rw [List.concat_eq_append] at hesk
    subst hesk
    have hsplitnd := List.nodup_append.mp hndE
    have hkes : k ∉ es := by
      intro hc
      exact (hsplitnd.2.2 hc) (List.mem_singleton_self k)
    have heslen : es.length + 1 = ov.allTimes.length := by
      simpa using hlenE
    rw [initPrecache_eq ov.allTimes hnd, processEvents_append]
    rw [processEvents_below_total ov ov.allTimes.length es _ hsplitnd.1 (by omega)]
    rw [show processEvents ov ov.allTimes.length [k]
        (⟨ov.allTimes.map (fun t => (t, (0 : ℚ))), true, "", es, 0⟩ : WmsLayerState) =
        (handleLoad ov ov.allTimes.length k
          ⟨ov.allTimes.map (fun t => (t, (0 : ℚ))), true, "", es, 0⟩).1 from rfl]
    have hfinal : (handleLoad ov ov.allTimes.length k
        ⟨ov.allTimes.map (fun t => (t, (0 : ℚ))), true, "", es, 0⟩).1 =
        ⟨setOpacityAt (ov.allTimes.map (fun t => (t, (0 : ℚ)))) ov.time ov.opacity,
          false, ov.time, es ++ [k], 1⟩ := by
      unfold handleLoad
      rw [if_neg hkes]
      rw [if_pos ⟨by simp; omega, rfl⟩]
      rw [if_pos hts]
    rw [hfinal]
    refine ⟨rfl, rfl, ?_, rfl⟩
    apply setOpacityAt_lookup_self
    rw [map_pair_keys]
    exact htime

/-- Witness for C1: a three-frame overlay whose events arrive in reverse
order. -/
theorem claim1_witness :
    (let ov : WmsOverlay := ⟨"radar-rain", "t2", 1, ["t1", "t2", "t3"], false⟩
     (processEvents ov 3 ["t3", "t2", "t1"] (initPrecache ov.allTimes)).staticLayer
        = false ∧
     (processEvents ov 3 ["t3", "t2", "t1"]
        (initPrecache ov.allTimes)).staticRemovedCount = 1 ∧
     lookupStr (processEvents ov 3 ["t3", "t2", "t1"]
        (initPrecache ov.allTimes)).frameLayers "t2" = some 1 ∧
     (processEvents ov 3 ["t3", "t2", "t1"]
        (initPrecache ov.allTimes)).activeTime = "t2") :=
  claim1_cutover_once ⟨"radar-rain", "t2", 1, ["t1", "t2", "t3"], false⟩
    ["t3", "t2", "t1"] (by decide) (by decide) (by decide) (by decide) (by decide)

theorem handleLoad_staticLayer (ov : WmsOverlay) (total : Nat) (key : String)
    (s : WmsLayerState) :
    ((handleLoad ov total key s).1).staticLayer =
      if total ≤ (if key ∈ s.loadedTimes then s.loadedTimes
          else s.loadedTimes ++ [key]).length ∧ s.staticLayer = true
      then false else s.staticLayer := by
  unfold handleLoad
  by_cases hk : key ∈ s.loadedTimes <;>
    simp [hk, apply_ite (fun p : WmsLayerState × (String × Nat × Nat) => p.1.staticLayer)]

theorem handleLoad_inv (ov : WmsOverlay) (total : Nat) (key : String) (s : WmsLayerState) :
    total ≤ ((handleLoad ov total key s).1).loadedTimes.length →
      ((handleLoad ov total key s).1).staticLayer = false := by
  intro hle
  rw [handleLoad_loadedTimes] at hle
  rw [handleLoad_staticLayer]
  cases hb : s.staticLayer
  · simp
  · rw [if_pos ⟨hle, rfl⟩]

theorem processEvents_inv (ov : WmsOverlay) (total : Nat) (es : List String)
    (s : WmsLayerState)
    (hInv : total ≤ s.loadedTimes.length → s.staticLayer = false) :
    total ≤ (processEvents ov total es s).loadedTimes.length →
      (processEvents ov total es s).staticLayer = false := by
  induction es generalizing s with
  | nil => exact hInv
  | cons e rest ih => exact ih _ (handleLoad_inv ov total e s)

theorem processEvents_loadedTimes_mem (ov : WmsOverlay) (total : Nat) (es : List String)
    (s : WmsLayerState) (k : String) (hk : k ∈ es ∨ k ∈ s.loadedTimes) :
    k ∈ (processEvents ov total es s).loadedTimes := by
  induction es generalizing s with
  | nil =>
    rcases hk with hk | hk
    · simp at hk
    · exact hk
  | cons e rest ih =>
    apply ih
    rcases hk with hk | hk
    · rcases List.mem_cons.mp hk with rfl | hk2
      · right
        rw [handleLoad_loadedTimes]
        split_ifs with h
        · exact h
        · simp
      · left
        exact hk2
    · right
      rw [handleLoad_loadedTimes]
      split_ifs
      · exact hk
      · exact List.mem_append_left _ hk

theorem handleLoad_duplicate (ov : WmsOverlay) (total : Nat) (k : String)
    (s : WmsLayerState) (hk : k ∈ s.loadedTimes)
    (hInv : total ≤ s.loadedTimes.length → s.staticLayer = false) :
    handleLoad ov total k s = (s, (ov.id, s.loadedTimes.length, total)) := by
  unfold handleLoad
  simp only [hk, if_true]
  rw [if_neg (by
    rintro ⟨h1, h2⟩
    rw [hInv h1] at h2
    exact Bool.false_ne_true h2)]

/-- C10: receiving the tiles-loaded event again for a frame key already
recorded is idempotent on any trace from a freshly pre-cached overlay:
the whole processed trace is unchanged by the duplicate occurrence, and
the duplicate event leaves the state untouched while reporting the same
(loaded, total) pair, because loaded frames are tracked as a set. -/
theorem claim10_duplicate_idempotent (ov : WmsOverlay) (es1 es2 : List String)
    (k : String) (hne : ov.allTimes ≠ []) (hk : k ∈ es1) :
    processEvents ov ov.allTimes.length (es1 ++ k :: es2) (initPrecache ov.allTimes) =
      processEvents ov ov.allTimes.length (es1 ++ es2) (initPrecache ov.allTimes) ∧
    handleLoad ov ov.allTimes.length k
        (processEvents ov ov.allTimes.length es1 (initPrecache ov.allTimes)) =
      (processEvents ov ov.allTimes.length es1 (initPrecache ov.allTimes),
        (ov.id,
         (processEvents ov ov.allTimes.length es1
           (initPrecache ov.allTimes)).loadedTimes.length,
         ov.allTimes.length)) := by
  have hInv0 : ov.allTimes.length ≤ (initPrecache ov.allTimes).loadedTimes.length →
      (initPrecache ov.allTimes).staticLayer = false := by
    intro h
    exfalso
    have h0 : (initPrecache ov.allTimes).loadedTimes = [] := rfl
    rw [h0] at h
    exact absurd (List.eq_nil_of_length_eq_zero (by simpa using h)) hne
  have s1Inv := processEvents_inv ov ov.allTimes.length es1 _ hInv0
  have hk1 : k ∈ (processEvents ov ov.allTimes.length es1
      (initPrecache ov.allTimes)).loadedTimes :=
    processEvents_loadedTimes_mem _ _ _ _ _ (Or.inl hk)
  have hdup := handleLoad_duplicate ov ov.allTimes.length k _ hk1 s1Inv
  refine ⟨?_, hdup⟩
  rw [processEvents_append, processEvents_append]
  show processEvents ov ov.allTimes.length es2
      ((handleLoad ov ov.allTimes.length k _).1) = _
  rw [hdup]

/-- Witness for C10: the duplicate of the first frame key arriving in the
middle of a three-frame trace. -/
theorem claim10_witness :
    (let ov : WmsOverlay := ⟨"radar-rain", "t2", 1, ["t1", "t2", "t3"], false⟩
     processEvents ov 3 (["t1", "t2"] ++ "t1" :: ["t3"]) (initPrecache ov.allTimes) =
       processEvents ov 3 (["t1", "t2"] ++ ["t3"]) (initPrecache ov.allTimes) ∧
     handleLoad ov 3 "t1" (processEvents ov 3 ["t1", "t2"] (initPrecache ov.allTimes)) =
       (processEvents ov 3 ["t1", "t2"] (initPrecache ov.allTimes),
         ("radar-rain",
          (processEvents ov 3 ["t1", "t2"] (initPrecache ov.allTimes)).loadedTimes.length,
          3))) :=
  claim10_duplicate_idempotent ⟨"radar-rain", "t2", 1, ["t1", "t2", "t3"], false⟩
    ["t1", "t2"] ["t3"] "t1" (by decide) (by decide)

theorem setOpacityAt_of_none (m : List (String × ℚ)) (k : String) (v : ℚ)
    (h : lookupStr m k = none) : setOpacityAt m k v = m := by
  unfold setOpacityAt
  rw [h]
  simp

/-- C7 counterexample: with pre-caching complete (no placeholder), a
registry holding frames a (visible) and b, and a requested frame key c
absent from the registry, the swap effect is not a no-op: it hides frame a
and records c as the active frame. -/
theorem claim7_counterexample :
    (let s : WmsLayerState := ⟨[("a", 1), ("b", 0)], false, "a", ["a", "b"], 1⟩
     let ov : WmsOverlay := ⟨"radar-rain", "c", 1, ["a", "b"], false⟩
     lookupStr s.frameLayers ov.time = none ∧ s.staticLayer = false ∧
     frameSwap ov s ≠ s ∧ (frameSwap ov s).activeTime = "c" ∧
     lookupStr (frameSwap ov s).frameLayers "a" = some 0) := by decide

/-- C7 amended: after pre-caching completes, a frame switch to a key with
no registered layer raises no error and adds or removes no layer, but it
is not a no-op: the previously active layer's opacity is set to 0 and the
active-frame state is set to the requested (missing) key; no layer
receives the target opacity. -/
theorem claim7_missing_key_swap (ov : WmsOverlay) (s : WmsLayerState)
    (hstatic : s.staticLayer = false) (hne : s.frameLayers ≠ [])
    (hmiss : lookupStr s.frameLayers ov.time = none)
    (ht : ov.time ≠ "") (hactive : ov.time ≠ s.activeTime) :
    frameSwap ov s =
      { s with frameLayers := setOpacityAt s.frameLayers s.activeTime 0
               activeTime := ov.time } ∧
    (frameSwap ov s).frameLayers.map Prod.fst = s.frameLayers.map Prod.fst ∧
    (frameSwap ov s).staticLayer = false ∧
    (frameSwap ov s).loadedTimes = s.loadedTimes ∧
    (frameSwap ov s).staticRemovedCount = s.staticRemovedCount ∧
    lookupStr (frameSwap ov s).frameLayers ov.time = none := by
  have hnone := setOpacityAt_lookup_none s.frameLayers s.activeTime ov.time 0 hmiss
  have hswap : frameSwap ov s =
      { s with frameLayers := setOpacityAt s.frameLayers s.activeTime 0
               activeTime := ov.time } := by
    unfold frameSwap
    rw [if_neg (by
      rintro (h | h)
      · exact ht h
      · exact hactive h)]
    rw [if_neg (by rw [hstatic]; exact Bool.false_ne_true)]
    rw [if_neg (by
      intro h
      exact hne (List.eq_nil_of_length_eq_zero h))]
    simp only [setOpacityAt_of_none _ _ _ hnone]
  refine ⟨hswap, ?_, ?_, ?_, ?_, ?_⟩ <;> rw [hswap] <;>
    first
      | rfl
      | exact setOpacityAt_keys s.frameLayers s.activeTime 0
      | exact hstatic
      | exact hnone

/-- Witness for C7 (amended): the concrete swap of the counterexample
state, evaluated. -/
theorem claim7_witness :
    frameSwap ⟨"radar-rain", "c", 1, ["a", "b"], false⟩
        ⟨[("a", 1), ("b", 0)], false, "a", ["a", "b"], 1⟩ =
      ⟨[("a", 0), ("b", 0)], false, "c", ["a", "b"], 1⟩ := by
  have h := claim7_missing_key_swap ⟨"radar-rain", "c", 1, ["a", "b"], false⟩
    ⟨[("a", 1), ("b", 0)], false, "a", ["a", "b"], 1⟩ rfl (by decide) (by decide)
    (by decide) (by decide)
  rw [h.1]
  decide

/-- C2: for two resolve requests A then B issued in order by the same
coordinator, the state after both responses equals the state produced by
B's response alone, in either arrival order, because a response whose
sequence number no longer matches the latest issued request is discarded;
this holds for both the multi-overlay coordinator and the model-map
coordinator. -/
theorem claim2_stale_response_guard (s0 : WmsCoordState)
    (rA rB : List (String × List String)) (hA hB : Bool)
    (m0 : ModelCoordState) (tA tB : List String) :
    (let i1 := issueRequest s0
     let i2 := issueRequest i1.1
     let afterB := wmsApplyResponse i2.2 rB hB i2.1
     wmsApplyResponse i1.2 rA hA afterB = afterB ∧
     wmsApplyResponse i2.2 rB hB (wmsApplyResponse i1.2 rA hA i2.1) = afterB) ∧
    (let j1 := modelIssueRequest m0
     let j2 := modelIssueRequest j1.1
     let mAfterB := modelApplyResponse j2.2 tB j2.1
     modelApplyResponse j1.2 tA mAfterB = mAfterB ∧
     modelApplyResponse j2.2 tB (modelApplyResponse j1.2 tA j2.1) = mAfterB) := by
  simp only [issueRequest, modelIssueRequest, wmsApplyResponse, modelApplyResponse]
  norm_num

/-- C3 (code bug witness): with cached entries for the radar and satellite
overlays keyed radar-rain and satellite-visIR, deactivating only the
satellite layer makes the reconciliation effect delete the radar entry as
well (the overlay id key holds bare layer ids, which never match the
product-suffixed cache keys), so aggregate progress resets to 0 and ready
becomes false, where C3 requires the radar entry to be left untouched. -/
theorem claim3_reconcile_drops_unchanged_overlay :
    (let cache := applyCacheStatus (applyCacheStatus []
       (overlayIdFor "radar" "rain" "visIR") 5 5)
       (overlayIdFor "satellite" "rain" "visIR") 2 5
     let pruned := reconcileCache (overlayIdKeyOf ["radar"]) cache
     lookupStr cache (overlayIdFor "radar" "rain" "visIR") = some (5, 5) ∧
     lookupStr pruned (overlayIdFor "radar" "rain" "visIR") = none ∧
     pruned = [] ∧
     deriveReady pruned = false ∧ deriveProgress pruned = 0) := by decide

theorem sumLoaded_le_sumTotal (cache : List (String × Nat × Nat))
    (hInv : ∀ e ∈ cache, e.2.1 ≤ e.2.2) : sumLoaded cache ≤ sumTotal cache := by
  induction cache with
  | nil => simp [sumLoaded, sumTotal]
  | cons e rest ih =>
    have h1 := hInv e (by simp)
    have h2 := ih (fun x hx => hInv x (by simp [hx]))
    simp only [sumLoaded, sumTotal, List.map_cons, List.sum_cons] at *
    omega

theorem sum_complete_iff (cache : List (String × Nat × Nat))
    (hInv : ∀ e ∈ cache, e.2.1 ≤ e.2.2) :
    (sumTotal cache ≤ sumLoaded cache ↔ ∀ e ∈ cache, e.2.1 = e.2.2) := by
  induction cache with
  | nil => simp [sumLoaded, sumTotal]
  | cons e rest ih =>
    have he := hInv e (by simp)
    have hrest : ∀ x ∈ rest, x.2.1 ≤ x.2.2 := fun x hx => hInv x (by simp [hx])
    have hsum := sumLoaded_le_sumTotal rest hrest
    simp only [sumLoaded, sumTotal, List.map_cons, List.sum_cons] at *
    constructor
    · intro h
      have h1a : e.2.1 = e.2.2 := by omega
      have h1b : (List.map (fun x => x.2.2) rest).sum ≤
          (List.map (fun x => x.2.1) rest).sum := by omega
      intro x hx
      rcases List.mem_cons.mp hx with rfl | hx2
      · exact h1a
      · exact ((ih hrest).mp h1b) x hx2
    · intro h
      have h1 : e.2.1 = e.2.2 := h e (by simp)
      have h2 := (ih hrest).mpr (fun x hx => h x (by simp [hx]))
      omega

theorem sumTotal_pos_iff (cache : List (String × Nat × Nat))
    (hpos : ∀ e ∈ cache, 0 < e.2.2) : (0 < sumTotal cache ↔ cache ≠ []) := by
  cases cache with
  | nil => simp [sumTotal]
  | cons e rest =>
    have h1 := hpos e (by simp)
    simp only [sumTotal, List.map_cons, List.sum_cons]
    constructor
    · intro _ hc
      exact List.noConfusion hc
    · intro _
      omega

/-- C4 counterexample: overlay A with a single frame reports (1, 1), while
overlay B is active but unresolved (empty frame-key list), so its
pre-cache effect returns early and reports nothing; the derived readiness
is true although the claim's formula over the active overlays, which
counts B as loaded 0 of total 0, demands false. -/
theorem claim4_counterexample :
    (let reportsA := runPrecache ⟨"lightning", "t1", 1, ["t1"], false⟩ ["t1"]
     let reportsB := runPrecache ⟨"hrrr", "", 1, [], true⟩ []
     let cache := (reportsA ++ reportsB).foldl
       (fun c r => applyCacheStatus c r.1 r.2.1 r.2.2) []
     cache = [("lightning", 1, 1)] ∧
     deriveReady cache = true ∧ specAggReady [(1, 1), (0, 0)] = false) := by decide

/-- C4 amended: provided every recorded cache entry satisfies
loaded ≤ total and total > 0 (which holds for all entries the load
handler ever reports), the readiness flag is true iff at least one entry
is recorded and every recorded entry has loaded = total (each with
total > 0); an active overlay that has not yet reported has no entry and
cannot force readiness off.  The aggregate ratio is
sum(loaded)/sum(total), and 0 when sum(total) = 0. -/
theorem claim4_ready_iff_entries_complete (cache : List (String × Nat × Nat))
    (hInv : ∀ e ∈ cache, e.2.1 ≤ e.2.2 ∧ 0 < e.2.2) :
    (deriveReady cache = true ↔
      cache ≠ [] ∧ ∀ e ∈ cache, e.2.1 = e.2.2 ∧ 0 < e.2.2) ∧
    (sumTotal cache = 0 → deriveProgress cache = 0) ∧
    (0 < sumTotal cache →
      deriveProgress cache = (sumLoaded cache : ℚ) / (sumTotal cache : ℚ)) := by
  refine ⟨?_, ?_, ?_⟩
  · unfold deriveReady
    rw [Bool.and_eq_true, decide_eq_true_eq, decide_eq_true_eq]
    constructor
    · rintro ⟨h1, h2⟩
      have hne := (sumTotal_pos_iff cache (fun e he => (hInv e he).2)).mp h2
      exact ⟨hne, fun e he =>
        ⟨(sum_complete_iff cache (fun x hx => (hInv x hx).1)).mp h1 e he,
         (hInv e he).2⟩⟩
    · rintro ⟨hne, h⟩
      exact ⟨(sum_complete_iff cache (fun x hx => (hInv x hx).1)).mpr
          (fun e he => (h e he).1),
        (sumTotal_pos_iff cache (fun e he => (hInv e he).2)).mpr hne⟩
  · intro h0
    unfold deriveProgress
    rw [if_neg (by omega)]
  · intro h0
    unfold deriveProgress
    rw [if_pos h0]

/-- Witness for C4 (amended): a one-entry cache with a complete overlay is
ready. -/
theorem claim4_witness : deriveReady [("lightning", 5, 5)] = true :=
  ((claim4_ready_iff_entries_complete [("lightning", 5, 5)] (by decide)).1).mpr
    (by decide)

/-- C6 counterexample: the model-map coordinator receives a three-element
time-mode timeline (its frame keys are TIME timestamps) and sets the
initial frame index to 0, not to the last index 2 as the claim requires
for time-mode timelines. -/
theorem claim6_counterexample :
    (let s := (modelIssueRequest ⟨0, [], 0, false, false, none⟩).1
     let applied := modelApplyResponse 1
       ["2026-02-18T00:00:00Z", "2026-02-18T01:00:00Z", "2026-02-18T02:00:00Z"] s
     applied.times.length = 3 ∧ applied.frameIndex = 0 ∧
     applied.frameIndex ≠ (3 : Int) - 1) := by decide

/-- C6 amended: in the multi-overlay coordinator the initial frame is 0
when the primary timeline is the HRRR forecast timeline (the only
forecast-mode timeline) and the last index otherwise; the model-map
coordinator however always initializes the frame index to 0, although its
frame keys are timestamps. -/
theorem claim6_initial_frame (fid : Nat) (hrrrActive : Bool) (s : WmsCoordState)
    (hid : fid = s.fetchCounter)
    (name : String) (ts : List String) (rest : List (String × List String))
    (hname : name ≠ HRRR_TIMELINE_KEY)
    (mid : Nat) (tdTimes : List String) (ms : ModelCoordState)
    (hmid : mid = ms.fetchCounter) :
    (wmsApplyResponse fid [] true s).frameIndex = 0 ∧
    (wmsApplyResponse fid ((name, ts) :: rest) hrrrActive s).frameIndex =
      ((lastN MAX_ANIMATION_FRAMES ts).length : Int) - 1 ∧
    (modelApplyResponse mid tdTimes ms).frameIndex = 0 := by
  subst hid hmid
  refine ⟨?_, ?_, ?_⟩
  · unfold wmsApplyResponse
    rw [if_neg (by simp)]
    simp [hrrrTimeline]
  · unfold wmsApplyResponse
    rw [if_neg (by simp)]
    cases hrrrActive <;> simp [hname]
  · unfold modelApplyResponse
    rw [if_neg (by simp)]

/-- Witness for C6 (amended): an HRRR-only response yields frame 0, an EC
radar response with three observation timestamps yields the last index 2,
and the model-map coordinator yields frame 0. -/
theorem claim6_witness :
    (wmsApplyResponse 1 [] true ⟨1, [], 5, false, true⟩).frameIndex = 0 ∧
    (wmsApplyResponse 1 [("RADAR_1KM_RRAI", ["t1", "t2", "t3"])] false
      ⟨1, [], 5, false, true⟩).frameIndex = ((lastN 18 ["t1", "t2", "t3"]).length : Int) - 1 ∧
    (modelApplyResponse 1 ["t1", "t2", "t3"] ⟨1, [], 7, false, true, none⟩).frameIndex = 0 :=
  claim6_initial_frame 1 false ⟨1, [], 5, false, true⟩ rfl
    "RADAR_1KM_RRAI" ["t1", "t2", "t3"] [] (by decide)
    1 ["t1", "t2", "t3"] ⟨1, [], 7, false, true, none⟩ rfl

theorem lookupStr_append {α : Type} (a b : List (String × α)) (k : String) :
    lookupStr (a ++ b) k =
      match lookupStr a k with
      | some v => some v
      | none => lookupStr b k := by
  induction a with
  | nil => rfl
  | cons e rest ih =>
    by_cases h : e.1 = k <;> simp [lookupStr, h, ih]

theorem lookupStr_map_update_ne {α : Type} (m : List (String × α)) (k j : String)
    (v : α) (h : j ≠ k) :
    lookupStr (m.map (fun e => if e.1 = k then (e.1, v) else e)) j = lookupStr m j := by
  induction m with
  | nil => rfl
  | cons e rest ih =>
    by_cases hek : e.1 = k
    · simp [lookupStr, hek, ih, Ne.symm h]
    · by_cases hej : e.1 = j <;> simp [lookupStr, hek, hej, ih, h]

theorem lookupStr_storeSet_self {α : Type} (m : List (String × α)) (k : String) (v : α) :
    lookupStr (storeSet m k v) k = some v := by
  unfold storeSet
  split_ifs with h
  · exact lookupStr_map_update m k v ((lookupStr_isSome_iff m k).mp h)
  · have hnone : lookupStr m k = none := by
      cases hl : lookupStr m k
      · rfl
      · rw [hl] at h
        simp at h
    rw [lookupStr_append, hnone]
    simp [lookupStr]

theorem lookupStr_storeSet_ne {α : Type} (m : List (String × α)) (k j : String)
    (v : α) (h : j ≠ k) :
    lookupStr (storeSet m k v) j = lookupStr m j := by
  unfold storeSet
  split_ifs with hs
  · exact lookupStr_map_update_ne m k j v h
  · rw [lookupStr_append]
    cases hl : lookupStr m j <;> simp [lookupStr, hl, Ne.symm h]

theorem layerTimeStep_lookup_ne (T : Nat) (fi : Int) (acc : List (String × String))
    (tl : LayerTimeline) (w : String) (h : w ≠ tl.wmsLayer) :
    lookupStr (layerTimeStep T fi acc tl) w = lookupStr acc w := by
  unfold layerTimeStep
  split_ifs <;> first | rfl | exact lookupStr_storeSet_ne acc tl.wmsLayer w _ h

theorem foldl_layerTimeStep_notmem (T : Nat) (fi : Int) (ts : List LayerTimeline)
    (acc : List (String × String)) (w : String)
    (h : w ∉ ts.map (fun t => t.wmsLayer)) :
    lookupStr (ts.foldl (layerTimeStep T fi) acc) w = lookupStr acc w := by
  induction ts generalizing acc with
  | nil => rfl
  | cons t rest ih =>
    simp only [List.map_cons, List.mem_cons, not_or] at h
    rw [List.foldl_cons, ih _ h.2, layerTimeStep_lookup_ne T fi acc t w h.1]

theorem foldl_layerTimeStep_mem (T : Nat) (fi : Int) (ts : List LayerTimeline)
    (acc : List (String × String)) (tl : LayerTimeline)
    (hnd : (ts.map (fun t => t.wmsLayer)).Nodup) (hmem : tl ∈ ts)
    (hne : tl.times ≠ []) :
    lookupStr (ts.foldl (layerTimeStep T fi) acc) tl.wmsLayer =
      some (jsIndex tl.times (if T ≤ 1 then (tl.times.length : Int) - 1
        else round (((fi : ℚ) / ((T : ℚ) - 1)) * ((tl.times.length : ℚ) - 1)))) := by
  induction ts generalizing acc with
  | nil => simp at hmem
  | cons t rest ih =>
    simp only [List.map_cons, List.nodup_cons] at hnd
    rcases List.mem_cons.mp hmem with rfl | hmem2
    · rw [List.foldl_cons, foldl_layerTimeStep_notmem T fi rest _ _ hnd.1]
      unfold layerTimeStep
      rw [if_neg (by
        intro h
        exact hne (List.eq_nil_of_length_eq_zero h))]
      split_ifs with hT
      · rw [lookupStr_storeSet_self]
      · rw [lookupStr_storeSet_self]
    · rw [List.foldl_cons]
      exact ih _ hnd.2 hmem2

/-- C5: for every timeline of the coordinator (with pairwise distinct
layer names) whose time list is non-empty, the layerTimes computation
assigns it the timestamp at exactly the index the spec formula gives:
round((frameIndex / (primaryTotal - 1)) * (length - 1)) when the primary
has more than one frame, and the last index otherwise. -/
theorem claim5_proportional_mapping (timelines : List LayerTimeline)
    (frameIndex : Nat) (tl : LayerTimeline)
    (hnd : (timelines.map (fun t => t.wmsLayer)).Nodup)
    (hmem : tl ∈ timelines) (hne : tl.times ≠ []) :
    lookupStr (computeLayerTimes timelines ((frameIndex : Nat) : Int)) tl.wmsLayer =
      some (tl.times.getD
        (specSecondaryIndex frameIndex (primaryTotalOf timelines) tl.times.length)
        "") := by
  unfold computeLayerTimes
  rw [foldl_layerTimeStep_mem _ _ _ _ _ hnd hmem hne]
  congr 1
  have hlen : 1 ≤ tl.times.length := List.length_pos.mpr hne
  by_cases hT : primaryTotalOf timelines ≤ 1
  · rw [if_pos hT]
    unfold jsIndex specSecondaryIndex
    rw [if_pos hT, if_pos (by omega : (0 : Int) ≤ (tl.times.length : Int) - 1)]
    congr 1
    omega
  · rw [if_neg hT]
    unfold jsIndex specSecondaryIndex
    rw [if_neg hT]
    have h2 : 2 ≤ primaryTotalOf timelines := by omega
    have h0 : (0 : ℚ) ≤ (((frameIndex : Nat) : Int) : ℚ) /
        ((primaryTotalOf timelines : ℚ) - 1) * ((tl.times.length : ℚ) - 1) := by
      apply mul_nonneg
      · apply div_nonneg
        · push_cast
          positivity
        · have hc : (2 : ℚ) ≤ (primaryTotalOf timelines : ℚ) := by exact_mod_cast h2
          linarith
      · have hc : (1 : ℚ) ≤ (tl.times.length : ℚ) := by exact_mod_cast hlen
        linarith
    have hr : 0 ≤ round ((((frameIndex : Nat) : Int) : ℚ) /
        ((primaryTotalOf timelines : ℚ) - 1) * ((tl.times.length : ℚ) - 1)) := by
      rw [round_eq]
      apply Int.floor_nonneg.mpr
      linarith
    rw [if_pos hr]
    push_cast
    rfl

/-- Witness for C5: primary length 10, secondary length 4; frame 9 maps to
the last secondary index 3, frame 0 to 0, and frame 4 to round((4/9)*3)=1. -/
theorem claim5_witness :
    lookupStr (computeLayerTimes
      [⟨"p", ["a0", "a1", "a2", "a3", "a4", "a5", "a6", "a7", "a8", "a9"]⟩,
       ⟨"s", ["b0", "b1", "b2", "b3"]⟩] ((9 : Nat) : Int)) "s" = some "b3" ∧
    lookupStr (computeLayerTimes
      [⟨"p", ["a0", "a1", "a2", "a3", "a4", "a5", "a6", "a7", "a8", "a9"]⟩,
       ⟨"s", ["b0", "b1", "b2", "b3"]⟩] ((0 : Nat) : Int)) "s" = some "b0" ∧
    lookupStr (computeLayerTimes
      [⟨"p", ["a0", "a1", "a2", "a3", "a4", "a5", "a6", "a7", "a8", "a9"]⟩,
       ⟨"s", ["b0", "b1", "b2", "b3"]⟩] ((4 : Nat) : Int)) "s" = some "b1" := by
  refine ⟨?_, ?_, ?_⟩
  · rw [claim5_proportional_mapping _ _ ⟨"s", ["b0", "b1", "b2", "b3"]⟩
      (by decide) (by decide) (by decide)]
    norm_num [specSecondaryIndex, primaryTotalOf, round_eq]
    decide
  · rw [claim5_proportional_mapping _ _ ⟨"s", ["b0", "b1", "b2", "b3"]⟩
      (by decide) (by decide) (by decide)]
    norm_num [specSecondaryIndex, primaryTotalOf, round_eq]
  · rw [claim5_proportional_mapping _ _ ⟨"s", ["b0", "b1", "b2", "b3"]⟩
      (by decide) (by decide) (by decide)]
    norm_num [specSecondaryIndex, primaryTotalOf, round_eq]

theorem expandTimesAux_empty (fuel : Nat) (t endT step : Int) (h : ¬ t ≤ endT) :
    expandTimesAux fuel t endT step = [] := by
  cases fuel <;> simp [expandTimesAux, h]

theorem expandTimesAux_eq (fuel : Nat) : ∀ (t endT step : Int), 0 < step → t ≤ endT →
    (endT - t).toNat / step.toNat + 1 ≤ fuel →
    expandTimesAux fuel t endT step =
      (List.range ((endT - t).toNat / step.toNat + 1)).map
        (fun k : Nat => t + (k : Int) * step) := by
  induction fuel with
  | zero =>
    intro t endT step hs hle hf
    exact (Nat.not_succ_le_zero _ hf).elim
  | succ fuel ih =>
    intro t endT step hs hle hf
    rw [expandTimesAux, if_pos hle]
    by_cases hnext : t + step ≤ endT
    · have hstep2 : step.toNat ≤ (endT - t).toNat := by omega
      have hsub : (endT - (t + step)).toNat = (endT - t).toNat - step.toNat := by omega
      have hdiv : (endT - t).toNat / step.toNat =
          (endT - (t + step)).toNat / step.toNat + 1 := by
        rw [hsub]
        exact Nat.div_eq_sub_div (by omega) hstep2
      rw [ih (t + step) endT step hs hnext (by omega), hdiv]
      rw [show List.range ((endT - (t + step)).toNat / step.toNat + 1 + 1) =
          0 :: (List.range ((endT - (t + step)).toNat / step.toNat + 1)).map Nat.succ
        from List.range_succ_eq_map _]
      rw [List.map_cons, List.map_map]
      congr 1
      · simp
      · apply List.map_congr_left
        intro k _
        simp only [Function.comp_apply, Nat.succ_eq_add_one]
        push_cast
        ring
    · have hdiv0 : (endT - t).toNat / step.toNat = 0 := Nat.div_eq_of_lt (by omega)
      rw [expandTimesAux_empty fuel (t + step) endT step hnext, hdiv0]
      rw [show List.range 1 = [0] from rfl]
      simp

theorem expandTimes_eq_range (t endT step : Int) (hs : 0 < step) (hle : t ≤ endT) :
    expandTimes t endT step =
      (List.range ((endT - t).toNat / step.toNat + 1)).map
        (fun k : Nat => t + (k : Int) * step) := by
  unfold expandTimes
  exact expandTimesAux_eq _ t endT step hs hle
    (by have := Nat.div_le_self (endT - t).toNat step.toNat; omega)

/-- C8 counterexample: the interval from 14:00Z to 15:00Z in steps of 45
minutes has valid endpoint dates and a positive step, yet its expansion
omits the end endpoint (45 does not divide 60), contradicting the claim
that expansion is inclusive of both endpoints for every such triple. -/
theorem claim8_counterexample :
    expandInterval "2026-02-18T14:00:00Z/2026-02-18T15:00:00Z/PT45M" =
      ["2026-02-18T14:00:00Z", "2026-02-18T14:45:00Z"] ∧
    "2026-02-18T15:00:00Z" ∉
      expandInterval "2026-02-18T14:00:00Z/2026-02-18T15:00:00Z/PT45M" ∧
    (parseDate "2026-02-18T14:00:00Z").isSome ∧
    (parseDate "2026-02-18T15:00:00Z").isSome ∧
    0 < parseDuration "PT45M" := by decide

/-- C8 amended: for every interval triple whose start and end parse as
valid dates with start ≤ end and whose step is a positive number of
milliseconds, expansion yields exactly the timestamps start + k*step for
0 ≤ k ≤ (end - start) / step; it always includes the start endpoint, and
it includes the end endpoint exactly when the step divides end - start
(in particular it does in the cited PT30M example). -/
theorem claim8_interval_expansion (interval p0 p1 p2 : String) (s e : Int)
    (hsplit : jsSplit '/' interval = [p0, p1, p2])
    (hp0 : parseDate p0 = some s) (hp1 : parseDate p1 = some e)
    (hle : s ≤ e) (hstep : 0 < parseDuration p2) :
    expandInterval interval =
      (List.range ((e - s).toNat / (parseDuration p2).toNat + 1)).map
        (fun k : Nat => fmtTime (s + (k : Int) * parseDuration p2)) := by
  unfold expandInterval
  rw [hsplit]
  simp only [List.length_cons, List.length_nil, List.getD, List.get?_cons_zero,
    List.get?_cons_succ, Option.getD_some, if_true, hp0, hp1]
  rw [if_neg (by omega)]
  rw [expandTimes_eq_range s e (parseDuration p2) hstep hle, List.map_map]
  rfl

/-- Witness for C8 (amended): the PT30M interval of the claim expands to
exactly the three timestamps, both endpoints included. -/
theorem claim8_witness :
    expandInterval "2026-02-18T14:00:00Z/2026-02-18T15:00:00Z/PT30M" =
      ["2026-02-18T14:00:00Z", "2026-02-18T14:30:00Z", "2026-02-18T15:00:00Z"] := by
  rw [claim8_interval_expansion "2026-02-18T14:00:00Z/2026-02-18T15:00:00Z/PT30M"
    "2026-02-18T14:00:00Z" "2026-02-18T15:00:00Z" "PT30M"
    1771423200000 1771426800000 (by decide) (by decide) (by decide) (by decide)
    (by decide)]
  decide

theorem digitChar_eq_zero (n : Nat) (h : n < 10) : Nat.digitChar n = '0' ↔ n = 0 := by
  interval_cases n <;> decide

theorem fmtTime_not_dot000Z (t : Int) : endsDot000Z (fmtTime t) = false := by
  unfold endsDot000Z fmtTime
  rw [Bool.eq_false_iff]
  intro h
  rw [List.isSuffixOf_iff_suffix, ← List.reverse_prefix] at h
  simp only [] at h
  by_cases hms : (t % 86400000).toNat % 1000 = 0
  · rw [if_pos hms] at h
    simp only [pad2, pad3, pad4, List.reverse_append, List.reverse_cons, List.reverse_nil,
      List.nil_append, List.append_assoc, List.cons_append, List.singleton_append] at h
    rw [List.cons_prefix_cons] at h
    rcases h with ⟨-, h⟩
    rw [List.cons_prefix_cons] at h
    rcases h with ⟨-, h⟩
    rw [List.cons_prefix_cons] at h
    rcases h with ⟨-, h⟩
    rw [List.cons_prefix_cons] at h
    rcases h with ⟨hcolon, -⟩
    exact absurd hcolon (by decide)
  · rw [if_neg hms] at h
    simp only [pad2, pad3, pad4, List.reverse_append, List.reverse_cons, List.reverse_nil,
      List.nil_append, List.append_assoc, List.cons_append, List.singleton_append] at h
    rw [List.cons_prefix_cons] at h
    rcases h with ⟨-, h⟩
    rw [List.cons_prefix_cons] at h
    rcases h with ⟨h3, h⟩
    rw [List.cons_prefix_cons] at h
    rcases h with ⟨h2, h⟩
    rw [List.cons_prefix_cons] at h
    rcases h with ⟨h1, -⟩
    have hlt : (t % 86400000).toNat % 1000 < 1000 := Nat.mod_lt _ (by omega)
    have e3 : (t % 86400000).toNat % 1000 % 10 = 0 :=
      (digitChar_eq_zero _ (by omega)).mp h3.symm
    have e2 : (t % 86400000).toNat % 1000 / 10 % 10 = 0 :=
      (digitChar_eq_zero _ (by omega)).mp h2.symm
    have e1 : (t % 86400000).toNat % 1000 / 100 = 0 :=
      (digitChar_eq_zero _ (by omega)).mp h1.symm
    apply hms
    omega

/-- C9 counterexample: a literal comma-separated timestamp carrying a
".000Z" millisecond part is returned verbatim by the resolver's expansion,
so the result does contain a timestamp ending in ".000Z", contradicting
the claim that every returned timestamp is normalized. -/
theorem claim9_counterexample :
    expandTimeDimension "2026-02-18T00:00:00.000Z" = ["2026-02-18T00:00:00.000Z"] ∧
    endsDot000Z "2026-02-18T00:00:00.000Z" = true := by decide

/-- C9 amended: timestamps produced by successful interval expansion are
normalized (a zero millisecond part is stripped, so no expanded timestamp
ends in ".000Z"); timestamps from comma-separated literal segments,
however, are returned verbatim and are not normalized. -/
theorem claim9_expansion_normalized (interval p0 p1 p2 : String) (s e : Int)
    (hsplit : jsSplit '/' interval = [p0, p1, p2])
    (hp0 : parseDate p0 = some s) (hp1 : parseDate p1 = some e)
    (hstep : 0 < parseDuration p2) :
    ∀ x ∈ expandInterval interval, endsDot000Z x = false := by
  intro x hx
  unfold expandInterval at hx
  rw [hsplit] at hx
  simp only [List.length_cons, List.length_nil, List.getD, List.get?_cons_zero,
    List.get?_cons_succ, Option.getD_some, if_true, hp0, hp1] at hx
  rw [if_neg (by omega)] at hx
  rcases List.mem_map.mp hx with ⟨v, -, rfl⟩
  exact fmtTime_not_dot000Z v

/-- Witness for C9 (amended): the first timestamp of the PT30M expansion
does not end in ".000Z". -/
theorem claim9_witness :
    endsDot000Z "2026-02-18T14:00:00Z" = false :=
  claim9_expansion_normalized "2026-02-18T14:00:00Z/2026-02-18T15:00:00Z/PT30M"
    "2026-02-18T14:00:00Z" "2026-02-18T15:00:00Z" "PT30M"
    1771423200000 1771426800000
    (by decide) (by decide) (by decide) (by decide)
    "2026-02-18T14:00:00Z" (by decide)

end LiivSky
